import Mathlib

/-!
Verification development for the `shefradar` market/social aggregation
repository.  The definitions below are a shallow embedding of

  * `fin_module/fetcher/nitter_rss.py` — the RSS-based social fetcher with
    its instance-failover resolver and feed normalizer
    (namespace `NitterRSS`), and
  * `fin_module/__main__.py` — the `MarketTracker` orchestrator and report
    renderer (namespace `MarketTracker`).

Conventions of the embedding:
  * external library calls (`html.unescape`-based text cleaning in
    `_clean_html`, and RFC-822 date parsing via `parsedate_to_datetime`)
    are abstracted as function parameters in a `TextExt` record: no claim
    depends on their internals;
  * the result of `xml.etree.ElementTree.fromstring` is modelled as a
    `Doc` value (either a parse error, mirroring `ET.ParseError`, or an
    element tree restricted to the channel/item shape the code reads);
  * each HTTP request is modelled by its observable response
    (`HttpResponse`); an `aiohttp` session is a function from instance
    URL to response;
  * `asyncio.gather(..., return_exceptions=True)` collects results in
    task-submission order; a coroutine's raised exception is an
    `Except.error` value.  The concurrent per-account fetches share
    `self.current_instance`; the embedding threads that state through the
    accounts sequentially (one linearization of the race, which is the
    only state interaction).
-/

namespace NitterRSS

/-- Substring test on character lists: `needle` occurs inside `hay`.
Models Python `pattern in url`. -/
def hasSub (needle : List Char) : List Char → Bool
  | [] => needle.isEmpty
  | c :: rest => needle.isPrefixOf (c :: rest) || hasSub needle rest

/-- `_is_local_instance`: the URL matches one of the loopback /
private-network substrings. -/
def isLocalInstance (url : String) : Bool :=
  ["localhost", "127.0.0.1", "0.0.0.0", "192.168.", "10."].any
    (fun p => hasSub p.toList url.toList)

/-- The class constant `NITTER_INSTANCES` (public fallback mirrors). -/
def NITTER_INSTANCES : List String :=
  [ "https://nitter.privacydev.net",
    "https://nitter.poast.org",
    "https://nitter.lucabased.xyz",
    "https://nitter.perennialte.ch",
    "https://nitter.net" ]

/-- `re.search(r"/status/(\d+)", link)`: scan left to right for the first
position where `/status/` is immediately followed by a digit; the captured
group is the maximal digit run there. -/
def findStatusDigits : List Char → Option (List Char)
  | [] => none
  | c :: rest =>
    if "/status/".toList.isPrefixOf (c :: rest) then
      match ((c :: rest).drop "/status/".toList.length) with
      | d :: ds => if d.isDigit then some (d :: ds.takeWhile Char.isDigit)
                   else findStatusDigits rest
      | [] => findStatusDigits rest
    else findStatusDigits rest

/-- Tweet-id extraction from a permanent link (`_parse_item`, lines
311-316): empty string when no `/status/<digits>` segment exists. -/
def extractTweetId (link : String) : String :=
  match findStatusDigits link.toList with
  | some ds => String.mk ds
  | none => ""

/-- External pure text helpers used by `_parse_item`:
`cleanHtml` models `_clean_html` (a pipeline of `html.unescape` and `re`
substitutions over the description text), and `rfc822ToIso` models
`parsedate_to_datetime(t).isoformat()` (`none` = the call raised). -/
structure TextExt where
  cleanHtml : String → String
  rfc822ToIso : String → Option String

/-- One `<item>` element as read by `_parse_item`: the text content of the
optional `link`, `pubDate` and `description` children. -/
structure Item where
  link : Option String
  pubDate : Option String
  description : Option String
deriving DecidableEq, Repr

/-- The `<channel>` element: its optional `title` text and its `<item>`s. -/
structure Channel where
  title : Option String
  items : List Item
deriving DecidableEq, Repr

/-- Result of `ET.fromstring` on the body: `malformed` = `ET.ParseError`
raised; otherwise the root with its optional `channel` child. -/
inductive Doc
  | malformed
  | parsed (channel : Option Channel)
deriving DecidableEq, Repr

/-- The normalized record built by `_parse_item` (the returned dict). -/
structure Tweet where
  id : String
  text : String
  username : String
  user_name : String
  created_at : String
  url : String
  nitter_url : String
  likes : Nat
  retweets : Nat
  replies : Nat
  source : String
deriving DecidableEq, Repr

/-- `_parse_item`: extract id / timestamp / text from one item.  The
Python body catches exceptions and returns `None`, but no operation in the
body can raise (every field access is guarded), so the embedding always
returns `some`. -/
def parseItem (ext : TextExt) (username user_name : String) (item : Item) :
    Option Tweet :=
  let link := item.link.getD ""
  let tweet_id := if link = "" then "" else extractTweetId link
  let created_at :=
    match item.pubDate with
    | some t => if t = "" then "" else (ext.rfc822ToIso t).getD t
    | none => ""
  let raw_text := item.description.getD ""
  let text := ext.cleanHtml raw_text
  let twitter_url :=
    if tweet_id = "" then ""
    else "https://twitter.com/" ++ username ++ "/status/" ++ tweet_id
  some
    { id := tweet_id
      text := text
      username := username
      user_name := user_name
      created_at := created_at
      url := twitter_url
      nitter_url := link
      likes := 0
      retweets := 0
      replies := 0
      source := "nitter_rss" }

/-- The part of the channel title before the first `" /"` separator
(Python `title.split(" /")[0]`). -/
def beforeSep : List Char → List Char
  | [] => []
  | c :: rest =>
    if " /".toList.isPrefixOf (c :: rest) then []
    else c :: beforeSep rest

/-- `_parse_rss`: parse the whole body.  `ET.ParseError` is caught and the
(empty) accumulated list returned; a missing channel yields `[]`; else
every item is run through `_parse_item` and non-`None` results kept. -/
def parseRss (ext : TextExt) (username : String) (doc : Doc) : List Tweet :=
  match doc with
  | .malformed => []
  | .parsed none => []
  | .parsed (some ch) =>
    let user_name :=
      match ch.title with
      | some t => if t = "" then username else (String.mk (beforeSep t.toList)).trim
      | none => username
    ch.items.filterMap (parseItem ext username user_name)

/-- A 200 body: `startsLt` is `content.strip().startswith("<")` (the
minimal RSS shape check), `doc` the result of parsing it as XML. -/
structure Body where
  startsLt : Bool
  doc : Doc
deriving DecidableEq, Repr

/-- Observable outcome of `session.get(rss_url)` for one instance:
HTTP 200 carries the body, otherwise the status / exception class the
code distinguishes. -/
inductive HttpResponse
  | ok (body : Body)
  | notFound
  | forbidden
  | otherStatus (code : Nat)
  | timeout
  | raised (msg : String)
deriving DecidableEq, Repr

/-- The fetcher's mutable state: `self.current_instance`,
`self.using_local_instance` (set once in `__init__`, never updated
afterwards), `self.NITTER_INSTANCES` and `self.max_tweets_per_user`. -/
structure FetcherState where
  currentInstance : String
  usingLocalInstance : Bool
  nitterInstances : List String
  maxTweetsPerUser : Nat
deriving DecidableEq, Repr

/-- `__init__`: the sticky instance starts as the configured one and the
local flag is derived from it once. -/
def initState (inst : String) (maxT : Nat) : FetcherState :=
  { currentInstance := inst
    usingLocalInstance := isLocalInstance inst
    nitterInstances := NITTER_INSTANCES
    maxTweetsPerUser := maxT }

/-- The body of the fallback-append loop (lines 198-200): append `inst`
unless it is the current instance or already listed. -/
def extendCands (cur : String) (acc : List String) (inst : String) : List String :=
  if inst ≠ cur ∧ ¬ acc.contains inst then acc ++ [inst] else acc

/-- `_fetch_user_rss` lines 192-200: the candidate list starts with the
sticky instance; public fallbacks are appended (skipping duplicates) only
when the fetcher is not using a local instance. -/
def instancesToTry (st : FetcherState) : List String :=
  let base := [st.currentInstance]
  if st.usingLocalInstance then base
  else st.nitterInstances.foldl (extendCands st.currentInstance) base

/-- The terminal error message of `_fetch_user_rss` (lines 248-253). -/
def allFailedMsg (username : String) (lastError : Option String)
    (usingLocal : Bool) : String :=
  let m := "All Nitter instances failed for @" ++ username
  let m := match lastError with
    | some e => m ++ " (last error: " ++ e ++ ")"
    | none => m
  if usingLocal then
    m ++ ". Make sure your local Nitter instance is running with valid tokens."
  else m

/-- The candidate loop of `_fetch_user_rss` (lines 202-253).  Returns the
fetch result (`Except.error` = the trailing `raise`), the value of
`self.current_instance` after the loop, and the list of instances a
request was issued to, in order. -/
def tryInstances (st : FetcherState) (resp : String → HttpResponse)
    (username : String) (ext : TextExt) :
    List String → Option String →
    Except String (List Tweet) × String × List String
  | [], lastError =>
    (.error (allFailedMsg username lastError st.usingLocalInstance),
     st.currentInstance, [])
  | inst :: rest, lastError =>
    match resp inst with
    | .ok body =>
      if body.startsLt then
        (.ok ((parseRss ext username body.doc).take st.maxTweetsPerUser),
         inst, [inst])
      else
        -- invalid RSS shape: `continue` without touching `last_error`
        let r := tryInstances st resp username ext rest lastError
        (r.1, r.2.1, inst :: r.2.2)
    | .notFound => (.ok [], st.currentInstance, [inst])
    | .forbidden =>
        let r := tryInstances st resp username ext rest
          (some "403 Forbidden - instance may require tokens")
        (r.1, r.2.1, inst :: r.2.2)
    | .otherStatus code =>
        let r := tryInstances st resp username ext rest
          (some ("HTTP " ++ toString code))
        (r.1, r.2.1, inst :: r.2.2)
    | .timeout =>
        let r := tryInstances st resp username ext rest (some "Timeout")
        (r.1, r.2.1, inst :: r.2.2)
    | .raised msg =>
        let r := tryInstances st resp username ext rest (some msg)
        (r.1, r.2.1, inst :: r.2.2)

/-- `_fetch_user_rss`: build the candidate list and run the loop; the
returned state carries the (possibly updated) sticky instance. -/
def fetchUserRss (st : FetcherState) (resp : String → HttpResponse)
    (username : String) (ext : TextExt) :
    Except String (List Tweet) × FetcherState × List String :=
  let r := tryInstances st resp username ext (instancesToTry st) none
  (r.1, { st with currentInstance := r.2.1 }, r.2.2)

/-- The per-account results of `asyncio.gather` in `fetch` (lines
158-162), in task-submission (account) order, threading the shared
sticky-instance state. -/
def gatherResults (resp : String → String → HttpResponse) (ext : TextExt) :
    FetcherState → List String →
    List (Except String (List Tweet)) × FetcherState
  | st, [] => ([], st)
  | st, u :: rest =>
    let r := fetchUserRss st (resp u) u ext
    let rs := gatherResults resp ext r.2.1 rest
    (r.1 :: rs.1, rs.2)

/-- One iteration of the result-collection loop of `fetch` (lines
164-169): an exception becomes one `@user: msg` error string, a
non-empty tweet list is appended to `all_tweets` (an empty one is
falsy and skipped). -/
def collectStep (acc : List Tweet × List String)
    (p : String × Except String (List Tweet)) : List Tweet × List String :=
  match p.2 with
  | .error m => (acc.1, acc.2 ++ ["@" ++ p.1 ++ ": " ++ m])
  | .ok ts => (if ts.isEmpty then acc.1 else acc.1 ++ ts, acc.2)

/-- The result-collection loop of `fetch` over the zipped
`(account, result)` pairs. -/
def collectTweets (pairs : List (String × Except String (List Tweet))) :
    List Tweet × List String :=
  pairs.foldl collectStep ([], [])

/-- Lexicographic `≤` on code-point lists: exactly Python's string
comparison (a proper prefix is smaller). -/
def listLe : List Char → List Char → Bool
  | [], _ => true
  | _ :: _, [] => false
  | a :: as, b :: bs =>
    if a < b then true
    else if b < a then false
    else listLe as bs

/-- Python string `≤` (lexicographic by code point). -/
def strLeB (a b : String) : Bool :=
  listLe a.toList b.toList

/-- Comparator of `all_tweets.sort(key=..., reverse=True)`: `a` may come
before `b` iff `a`'s `created_at` key is not below `b`'s. -/
def tweetRel (a b : Tweet) : Prop :=
  strLeB b.created_at a.created_at = true

instance : DecidableRel tweetRel := fun a b =>
  inferInstanceAs (Decidable (strLeB b.created_at a.created_at = true))

/-- Stable sort by `created_at` descending (model of line 172).  Python
`list.sort` is Timsort, which is stable, and `reverse=True` keeps equal
keys in their original order; any stable sort under `tweetRel` computes
the same list, and insertion sort is one. -/
def sortTweetsDesc (l : List Tweet) : List Tweet :=
  l.insertionSort tweetRel

/-- The dictionary returned by `NitterRSSFetcher.fetch`. -/
structure FetchOutput where
  tweets : List Tweet
  errors : List String
  instanceUsed : String
  timestamp : String
deriving Repr

/-- The tweets contributed by the successful accounts of a gathered
result list, in collection order (specification view of the
`all_tweets.extend` branch of the loop). -/
def oksJoin : List (String × Except String (List Tweet)) → List Tweet
  | [] => []
  | (_, .ok ts) :: rest => ts ++ oksJoin rest
  | (_, .error _) :: rest => oksJoin rest

/-- The `@user: message` strings contributed by the failed accounts of a
gathered result list, in collection order (specification view of the
`errors.append` branch of the loop). -/
def errEntries : List (String × Except String (List Tweet)) → List String
  | [] => []
  | (_, .ok _) :: rest => errEntries rest
  | (u, .error m) :: rest => ("@" ++ u ++ ": " ++ m) :: errEntries rest

/-- The fetcher states one instance object can be in: its `__init__`
state, and the state after any sequence of `_fetch_user_rss` calls
(each call may move the sticky instance). -/
inductive Reachable : FetcherState → Prop
  | init (inst : String) (maxT : Nat) : Reachable (initState inst maxT)
  | step (st : FetcherState) (resp : String → HttpResponse) (u : String)
      (ext : TextExt) : Reachable st → Reachable (fetchUserRss st resp u ext).2.1

/-- The merged (pre-sort) tweet list of one `fetch` run. -/
def mergedTweets (st : FetcherState) (resp : String → String → HttpResponse)
    (ext : TextExt) (accounts : List String) : List Tweet :=
  (collectTweets (accounts.zip (gatherResults resp ext st accounts).1)).1

/-- `NitterRSSFetcher.fetch` (lines 143-179): gather all accounts, record
per-account exceptions as error strings, sort the merged tweets by
`created_at` descending, and return the result dictionary. -/
def fetch (st : FetcherState) (resp : String → String → HttpResponse)
    (ext : TextExt) (accounts : List String) (now : String) :
    FetchOutput × FetcherState :=
  let g := gatherResults resp ext st accounts
  let c := collectTweets (accounts.zip g.1)
  ({ tweets := sortTweetsDesc c.1
     errors := c.2
     instanceUsed := g.2.currentInstance
     timestamp := now }, g.2)

end NitterRSS

namespace MarketTracker

/-!
Embedding of `MarketTracker` (`fin_module/__main__.py`).  Monetary /
percentage values are Python floats rendered with fixed two-digit
formats; the embedding carries them as exact integers scaled by 100
(hundredths) and models the `:.2f` / `:+.2f` / `:,.2f` f-string formats
on those scaled values.
-/

/-- Two-digit zero-padded fraction part. -/
def pad2 (n : Nat) : String :=
  if n < 10 then "0" ++ toString n else toString n

/-- `f"{x:.2f}"` on a value given in hundredths. -/
def fmtF2 (c : Int) : String :=
  (if c < 0 then "-" else "") ++ toString (c.natAbs / 100) ++ "." ++ pad2 (c.natAbs % 100)

/-- `f"{x:+.2f}"` on a value given in hundredths. -/
def fmtPlus2 (c : Int) : String :=
  (if c < 0 then "-" else "+") ++ toString (c.natAbs / 100) ++ "." ++ pad2 (c.natAbs % 100)

/-- Insert thousands separators into a reversed digit list. -/
def group3 : List Char → List Char
  | a :: b :: c :: d :: rest => a :: b :: c :: ',' :: group3 (d :: rest)
  | l => l

/-- The integer part with `,` thousands grouping. -/
def intGrouped (n : Nat) : String :=
  String.mk (group3 (toString n).toList.reverse).reverse

/-- `f"{x:,.2f}"` on a value given in hundredths. -/
def fmtComma2 (c : Int) : String :=
  (if c < 0 then "-" else "") ++ intGrouped (c.natAbs / 100) ++ "." ++ pad2 (c.natAbs % 100)

/-- `"📈" if change >= 0 else "📉"`. -/
def updownIcon (c : Int) : String :=
  if 0 ≤ c then "📈" else "📉"

/-- One entry of `stock_cn.indices`. -/
structure StockIndex where
  name : String
  price : Int
  changePct : Int
deriving Repr

/-- `precious_metal.gold` / `.silver`. -/
structure Metal where
  price : Int
  changePct : Int
deriving Repr

/-- One entry of `crypto.coins`. -/
structure Coin where
  symbol : String
  price : Int
  change24h : Int
deriving Repr

/-- One entry of `futures.commodities`. -/
structure Commodity where
  name : String
  price : Int
  changePct : Int
deriving Repr

/-- One entry of `github.trending`. -/
structure Repo where
  name : String
  stars : Nat
  description : String
deriving Repr

/-- One entry of `twitter.tweets` (the fields the report reads). -/
structure RTweet where
  username : String
  text : String
  likes : Nat
deriving Repr

/-- One entry of `wechat.articles` (the fields the report reads). -/
structure Article where
  title : String
  accountName : String
deriving Repr

/-- The per-source payload dictionaries stored in `self.results`. -/
inductive SourceData
  | stockCn (indices : List StockIndex)
  | preciousMetal (gold silver : Option Metal)
  | crypto (coins : List Coin)
  | futures (commodities : List Commodity)
  | github (trending : List Repo)
  | twitter (tweets : List RTweet)
  | wechat (articles : List Article)
deriving Repr

/-- `self.results.get(key)` truthiness: the stored value must exist and be
a non-`None` payload (`self.results` maps a key to `None` when its fetch
returned nothing). -/
def getResult (key : String) : List (String × Option SourceData) → Option SourceData
  | [] => none
  | (k, v) :: rest => if k = key then v else getResult key rest

/-- 50-character separator (`"=" * 50`). -/
def eqLine : String := String.mk (List.replicate 50 '=')

/-- 40-character separator (`"-" * 40`). -/
def dashLine : String := String.mk (List.replicate 40 '-')

/-- The A-share section body rows (lines 319-326). -/
def stockRows : Option SourceData → List String
  | some (.stockCn indices) =>
    (indices.take 5).map (fun idx =>
      "  " ++ updownIcon idx.changePct ++ " " ++ idx.name ++ ": " ++
      fmtF2 idx.price ++ " (" ++ fmtPlus2 idx.changePct ++ "%)")
  | _ => []

/-- The precious-metal section body rows (lines 332-338). -/
def metalRows : Option SourceData → List String
  | some (.preciousMetal gold silver) =>
    (match gold with
     | some g => ["  🪙 黄金: $" ++ fmtF2 g.price ++ " (" ++ fmtPlus2 g.changePct ++ "%)"]
     | none => []) ++
    (match silver with
     | some s => ["  🥈 白银: $" ++ fmtF2 s.price ++ " (" ++ fmtPlus2 s.changePct ++ "%)"]
     | none => [])
  | _ => []

/-- The crypto section body rows (lines 344-352). -/
def cryptoRows : Option SourceData → List String
  | some (.crypto coins) =>
    (coins.take 5).map (fun coin =>
      "  " ++ updownIcon coin.change24h ++ " " ++ coin.symbol.toUpper ++ ": $" ++
      fmtComma2 coin.price ++ " (" ++ fmtPlus2 coin.change24h ++ "%)")
  | _ => []

/-- The futures section body rows (lines 358-366). -/
def futuresRows : Option SourceData → List String
  | some (.futures commodities) =>
    (commodities.take 5).map (fun item =>
      "  " ++ updownIcon item.changePct ++ " " ++ item.name ++ ": " ++
      fmtF2 item.price ++ " (" ++ fmtPlus2 item.changePct ++ "%)")
  | _ => []

/-- The GitHub section body rows (lines 372-381). -/
def githubRows : Option SourceData → List String
  | some (.github trending) =>
    (trending.take 5).foldr (fun repo acc =>
      let desc := repo.description.take 50
      ("  ⭐ " ++ repo.name ++ " (" ++ toString repo.stars ++ " stars)") ::
      (if desc = "" then acc else ("     " ++ desc ++ "...") :: acc)) []
  | _ => []

/-- The Twitter section body rows (lines 387-398). -/
def twitterRows : Option SourceData → List String
  | some (.twitter tweets) =>
    if tweets.isEmpty then ["  暂无推文数据"]
    else
      (tweets.take 5).foldr (fun tweet acc =>
        let text := (tweet.text.take 80).replace "\n" " "
        ("  @" ++ tweet.username ++ ": " ++ text ++ "...") ::
        ("     ❤️ " ++ toString tweet.likes) :: acc) []
  | _ => ["  暂无推文数据"]

/-- The WeChat section body rows (lines 404-413). -/
def wechatRows : Option SourceData → List String
  | some (.wechat articles) =>
    if articles.isEmpty then ["  暂无公众号文章"]
    else
      (articles.take 5).map (fun a =>
        "  📄 [" ++ a.accountName ++ "] " ++ (a.title.take 40))
  | _ => ["  暂无公众号文章"]

/-- One conditional report section: header lines plus body rows when the
key's stored value is truthy, nothing otherwise. -/
def section? (d : Option SourceData) (header : String)
    (rows : Option SourceData → List String) : List String :=
  match d with
  | some _ => [header, dashLine] ++ rows d
  | none => []

/-- `MarketTracker.generate_report` (lines 304-426).  `nowStr` is the
output of `now.strftime('%Y年%m月%d日 %H:%M')` read from the wall clock at
render time. -/
def generateReport (results : List (String × Option SourceData))
    (errors : List String) (nowStr : String) : String :=
  let header := [eqLine, "📊 每日市场追踪报告", "📅 " ++ nowStr, eqLine]
  let body :=
    section? (getResult "stock_cn" results) "\n🇨🇳 【A股市场】" stockRows ++
    section? (getResult "precious_metal" results) "\n🥇 【贵金属】" metalRows ++
    section? (getResult "crypto" results) "\n₿ 【加密货币】" cryptoRows ++
    section? (getResult "futures" results) "\n📈 【期货市场】" futuresRows ++
    section? (getResult "github" results) "\n💻 【GitHub 趋势】" githubRows ++
    section? (getResult "twitter" results) "\n🐦 【Twitter 热点】" twitterRows ++
    section? (getResult "wechat" results) "\n📱 【微信公众号】" wechatRows
  let warn :=
    if errors.isEmpty then []
    else ["\n⚠️ 【抓取警告】", dashLine] ++ errors.map (fun e => "  - " ++ e)
  let footer := ["\n" ++ eqLine, "📌 报告生成完毕", eqLine]
  String.intercalate "\n" (header ++ body ++ warn ++ footer)

/-- What the body of one `fetch_<source>` coroutine did before the
`try/except` wrapper resolved it. -/
inductive SourceOutcome
  | importFailed (msg : String)
  | fetchRaised (msg : String)
  | disabled
  | fetched (d : SourceData)

/-- One scheduled source: its `results` key, the two error labels its
wrapper uses, and what its body did. -/
structure SourceSpec where
  key : String
  moduleLabel : String
  dataLabel : String
  outcome : SourceOutcome

/-- One `fetch_<source>` wrapper (e.g. lines 42-58): `ImportError` and any
other exception are caught, logged into `self.errors`, and the coroutine
returns `None`; a disabled fetcher also returns `None`; on success the
payload is returned.  The wrapper itself never raises. -/
def runSourceTask (s : SourceSpec) : Option SourceData × List String :=
  match s.outcome with
  | .importFailed m => (none, [s.moduleLabel ++ ": " ++ m])
  | .fetchRaised m => (none, [s.dataLabel ++ ": " ++ m])
  | .disabled => (none, [])
  | .fetched d => (some d, [])

/-- A settled `asyncio.gather(..., return_exceptions=True)` slot. -/
inductive TaskResult
  | exn (msg : String)
  | val (v : Option SourceData)

/-- One iteration of the result-collection loop of `fetch_all` (lines
294-300): an exception result is recorded in the error ledger and its
key is NOT added to `self.results`; any other result (including `None`)
is stored under its key. -/
def settleStep (acc : List (String × Option SourceData) × List String)
    (p : String × TaskResult) :
    List (String × Option SourceData) × List String :=
  match p.2 with
  | .exn m => (acc.1, acc.2 ++ [p.1 ++ ": " ++ m])
  | .val v => (acc.1 ++ [(p.1, v)], acc.2)

/-- The fold of `settleStep` over the zipped `(key, result)` pairs. -/
def collectOutcomes (pairs : List (String × TaskResult)) :
    List (String × Option SourceData) × List String :=
  pairs.foldl settleStep ([], [])

/-- `MarketTracker.fetch_all` (lines 273-302): schedule the seven wrapper
coroutines, gather them, and collect `(key, result)` pairs.  Because every
wrapper catches all exceptions and returns a value, every gathered slot is
a `TaskResult.val`.  (The wrappers' own `self.errors` appends happen
during task execution and are not part of this collection loop.) -/
def fetchAll (specs : List SourceSpec) :
    List (String × Option SourceData) × List String :=
  collectOutcomes (specs.map (fun s => (s.key, .val (runSourceTask s).1)))

end MarketTracker

namespace NitterRSS

/-- The invariant tying the `using_local_instance` flag (computed once in
`__init__`) to the evolving sticky instance. -/
def GoodState (st : FetcherState) : Prop :=
  st.usingLocalInstance = isLocalInstance st.currentInstance ∧
  st.nitterInstances = NITTER_INSTANCES

/-- Trivial external text helpers for concrete evaluations. -/
def wExt : TextExt := ⟨fun s => s, fun s => some s⟩

/-- A fetcher configured with the first public instance. -/
def wSt : FetcherState := initState "https://nitter.privacydev.net" 10

/-- A fetcher configured with a local instance. -/
def wStLocal : FetcherState := initState "http://localhost:8080" 10

/-- Session where the primary candidate is forbidden and every other
candidate answers 200 with a well-formed (empty-channel) feed. -/
def respForbiddenThenOk : String → HttpResponse := fun i =>
  if i = "https://nitter.privacydev.net" then .forbidden
  else .ok ⟨true, .parsed none⟩

/-- A well-formed one-item feed. -/
def goodDoc : Doc :=
  .parsed (some ⟨some "User / @u",
    [⟨some "https://nitter.poast.org/u/status/99", some "D", some "hello"⟩]⟩)

/-- Session where the primary candidate answers 200 with a body that
starts with `<` but is not well-formed XML, while every other candidate
would answer with a parsable one-item feed. -/
def respBadXmlThenGood : String → HttpResponse := fun i =>
  if i = "https://nitter.privacydev.net" then .ok ⟨true, .malformed⟩
  else .ok ⟨true, goodDoc⟩

/-- A feed with two items that carry the same `created_at` and ids `2`
then `1` in document order (for the tie-break behavior of the sort). -/
def tieDoc : Doc :=
  .parsed (some ⟨none,
    [⟨some "https://nitter.net/u/status/2", some "2024-01-01T00:00:00", none⟩,
     ⟨some "https://nitter.net/u/status/1", some "2024-01-01T00:00:00", none⟩]⟩)

/-- A feed with two items whose links embed the same tweet id. -/
def dupDoc : Doc :=
  .parsed (some ⟨some "User / @u",
    [⟨some "https://nitter.net/u/status/123", some "A", some "first"⟩,
     ⟨some "https://nitter.net/u/status/123#m", some "B", some "second"⟩]⟩)

/-- A feed of five items where the third has no `status/<digits>` path
segment in its link. -/
def fiveDoc : Doc :=
  .parsed (some ⟨some "User / @u",
    [⟨some "https://nitter.net/u/status/11", some "A", some "one"⟩,
     ⟨some "https://nitter.net/u/status/22", some "B", some "two"⟩,
     ⟨some "https://nitter.net/u/with_replies", some "C", some "three"⟩,
     ⟨some "https://nitter.net/u/status/44", some "D", some "four"⟩,
     ⟨some "https://nitter.net/u/status/55", some "E", some "five"⟩]⟩)

end NitterRSS

namespace MarketTracker

/-- A two-entry results mapping, in one population order. -/
def resA : List (String × Option SourceData) :=
  [("twitter", some (.twitter [])), ("github", none)]

/-- The same two entries, populated in the opposite order. -/
def resB : List (String × Option SourceData) :=
  [("github", none), ("twitter", some (.twitter []))]

end MarketTracker

namespace NitterRSS

theorem parseItem_isSome (ext : TextExt) (u un : String) (item : Item) :
    (parseItem ext u un item).isSome = true := rfl

theorem extractTweetId_empty : extractTweetId "" = "" := rfl

theorem parseItem_id (ext : TextExt) (u un : String) (item : Item) :
    (parseItem ext u un item).map Tweet.id =
      some (extractTweetId (item.link.getD "")) := by
  by_cases h : item.link.getD "" = ""
  · simp [parseItem, h, extractTweetId_empty]
  · simp [parseItem, h]

theorem length_filterMap_parseItem (ext : TextExt) (u un : String) :
    ∀ items : List Item,
      (items.filterMap (parseItem ext u un)).length = items.length
  | [] => rfl
  | i :: rest => by
    obtain ⟨t, ht⟩ : ∃ t, parseItem ext u un i = some t := ⟨_, rfl⟩
    rw [List.filterMap_cons, ht]
    simp [length_filterMap_parseItem ext u un rest]

theorem foldl_extendCands_ne_nil (cur : String) :
    ∀ (l acc : List String), acc ≠ [] → l.foldl (extendCands cur) acc ≠ []
  | [], _, h => h
  | i :: l, acc, h => by
    have hstep : extendCands cur acc i ≠ [] := by
      unfold extendCands
      split
      · simp
      · exact h
    exact foldl_extendCands_ne_nil cur l _ hstep

theorem foldl_extendCands_head (cur : String) :
    ∀ (l acc : List String), acc ≠ [] →
      (l.foldl (extendCands cur) acc).head? = acc.head?
  | [], _, _ => rfl
  | i :: l, acc, h => by
    have hstep : extendCands cur acc i ≠ [] := by
      unfold extendCands
      split
      · simp
      · exact h
    have hh : (extendCands cur acc i).head? = acc.head? := by
      unfold extendCands
      split
      · cases acc with
        | nil => exact absurd rfl h
        | cons a as => simp
      · rfl
    rw [List.foldl_cons, foldl_extendCands_head cur l _ hstep, hh]

theorem instancesToTry_head (st : FetcherState) :
    ∃ t, instancesToTry st = st.currentInstance :: t := by
  by_cases hl : st.usingLocalInstance
  · exact ⟨[], by simp [instancesToTry, hl]⟩
  · have hne : st.nitterInstances.foldl (extendCands st.currentInstance)
        [st.currentInstance] ≠ [] :=
      foldl_extendCands_ne_nil _ _ _ (by simp)
    have hh := foldl_extendCands_head st.currentInstance st.nitterInstances
      [st.currentInstance] (by simp)
    obtain ⟨a, t, hat⟩ := List.exists_cons_of_ne_nil hne
    have ha : a = st.currentInstance := by
      rw [hat] at hh
      simpa using hh
    refine ⟨t, ?_⟩
    simp only [instancesToTry, if_neg hl]
    rw [hat, ha]

theorem mem_foldl_extendCands (cur : String) :
    ∀ (l acc : List String) (x : String),
      x ∈ l.foldl (extendCands cur) acc → x ∈ acc ∨ x ∈ l
  | [], _, _, h => .inl h
  | i :: l, acc, x, h => by
    rcases mem_foldl_extendCands cur l (extendCands cur acc i) x h with h1 | h1
    · unfold extendCands at h1
      split at h1
      · rcases List.mem_append.mp h1 with h2 | h2
        · exact .inl h2
        · simp only [List.mem_singleton] at h2
          exact .inr (by simp [h2])
      · exact .inl h1
    · exact .inr (List.mem_cons_of_mem _ h1)

theorem mem_instancesToTry {st : FetcherState} {x : String}
    (h : x ∈ instancesToTry st) :
    x = st.currentInstance ∨ x ∈ st.nitterInstances := by
  by_cases hl : st.usingLocalInstance
  · simp [instancesToTry, hl] at h
    exact .inl h
  · simp only [instancesToTry, if_neg hl] at h
    rcases mem_foldl_extendCands _ _ _ _ h with h1 | h1
    · simp only [List.mem_singleton] at h1
      exact .inl h1
    · exact .inr h1

end NitterRSS

namespace NitterRSS

theorem tryInstances_att_head (st : FetcherState) (resp : String → HttpResponse)
    (u : String) (ext : TextExt) (c : String) (rest : List String)
    (lastErr : Option String) :
    ((tryInstances st resp u ext (c :: rest) lastErr).2.2).head? = some c := by
  cases hr : resp c <;> simp [tryInstances, hr]
  case ok body => split <;> simp

theorem tryInstances_singleton_att (st : FetcherState)
    (resp : String → HttpResponse) (u : String) (ext : TextExt) (c : String)
    (lastErr : Option String) :
    (tryInstances st resp u ext [c] lastErr).2.2 = [c] := by
  cases hr : resp c <;> simp [tryInstances, hr]
  case ok body => split <;> simp [tryInstances]

theorem tryInstances_current_mem (st : FetcherState)
    (resp : String → HttpResponse) (u : String) (ext : TextExt) :
    ∀ (l : List String) (lastErr : Option String),
      (tryInstances st resp u ext l lastErr).2.1 = st.currentInstance ∨
      (tryInstances st resp u ext l lastErr).2.1 ∈ l
  | [], _ => .inl rfl
  | c :: rest, lastErr => by
    cases hr : resp c
    case ok body =>
      by_cases hs : body.startsLt
      · simp [tryInstances, hr, hs]
      · have ih := tryInstances_current_mem st resp u ext rest
          lastErr
        simp only [tryInstances, hr, Bool.not_eq_true] at *
        rw [if_neg (by simp [hs])]
        rcases ih with h | h
        · exact .inl h
        · exact .inr (List.mem_cons_of_mem _ h)
    case notFound => exact .inl (by simp [tryInstances, hr])
    case forbidden =>
      have ih := tryInstances_current_mem st resp u ext rest
        (some "403 Forbidden - instance may require tokens")
      simp only [tryInstances, hr]
      rcases ih with h | h
      · exact .inl h
      · exact .inr (List.mem_cons_of_mem _ h)
    case otherStatus code =>
      have ih := tryInstances_current_mem st resp u ext rest
        (some ("HTTP " ++ toString code))
      simp only [tryInstances, hr]
      rcases ih with h | h
      · exact .inl h
      · exact .inr (List.mem_cons_of_mem _ h)
    case timeout =>
      have ih := tryInstances_current_mem st resp u ext rest (some "Timeout")
      simp only [tryInstances, hr]
      rcases ih with h | h
      · exact .inl h
      · exact .inr (List.mem_cons_of_mem _ h)
    case raised msg =>
      have ih := tryInstances_current_mem st resp u ext rest (some msg)
      simp only [tryInstances, hr]
      rcases ih with h | h
      · exact .inl h
      · exact .inr (List.mem_cons_of_mem _ h)

theorem fetchUserRss_state (st : FetcherState) (resp : String → HttpResponse)
    (u : String) (ext : TextExt) :
    (fetchUserRss st resp u ext).2.1 =
      { st with currentInstance :=
          (tryInstances st resp u ext (instancesToTry st) none).2.1 } := rfl

theorem nitter_not_local : ∀ x ∈ NITTER_INSTANCES, isLocalInstance x = false := by
  decide

theorem reachable_good {st : FetcherState} (h : Reachable st) : GoodState st := by
  induction h with
  | init inst maxT => exact ⟨rfl, rfl⟩
  | step st resp u ext _ ih =>
    rw [fetchUserRss_state]
    refine ⟨?_, ih.2⟩
    show st.usingLocalInstance =
      isLocalInstance (tryInstances st resp u ext (instancesToTry st) none).2.1
    by_cases hl : st.usingLocalInstance
    · have hit : instancesToTry st = [st.currentInstance] := by
        simp [instancesToTry, hl]
      rw [hit]
      rcases tryInstances_current_mem st resp u ext [st.currentInstance] none
        with h1 | h1
      · rw [h1]; exact ih.1
      · simp only [List.mem_singleton] at h1
        rw [h1]; exact ih.1
    · rcases tryInstances_current_mem st resp u ext (instancesToTry st) none
        with h1 | h1
      · rw [h1]; exact ih.1
      · rcases mem_instancesToTry h1 with h2 | h2
        · rw [h2]; exact ih.1
        · rw [ih.2] at h2
          rw [nitter_not_local _ h2]
          simpa using hl

end NitterRSS

namespace NitterRSS

/-- C6: whenever the current/sticky endpoint of a reachable fetcher state
is classified as local (its URL matches a loopback/private-network
pattern), a per-unit fetch issues its only request to that endpoint: the
attempted-instance list is exactly the sticky instance, so no public
candidate is ever attempted, whatever the responses are. -/
theorem C6_local_endpoint_exclusive (st : FetcherState) (h : Reachable st)
    (hl : isLocalInstance st.currentInstance = true)
    (resp : String → HttpResponse) (u : String) (ext : TextExt) :
    (fetchUserRss st resp u ext).2.2 = [st.currentInstance] := by
  have hg := reachable_good h
  have hloc : st.usingLocalInstance = true := by rw [hg.1, hl]
  have hit : instancesToTry st = [st.currentInstance] := by
    simp [instancesToTry, hloc]
  show (tryInstances st resp u ext (instancesToTry st) none).2.2 = _
  rw [hit]
  exact tryInstances_singleton_att st resp u ext st.currentInstance none

/-- Witness for C6 at a concrete local deployment whose only request
times out. -/
theorem C6_witness :
    isLocalInstance wStLocal.currentInstance = true ∧
    (fetchUserRss wStLocal (fun _ => .timeout) "user" wExt).2.2 =
      [wStLocal.currentInstance] :=
  ⟨by decide, C6_local_endpoint_exclusive wStLocal
    (Reachable.init "http://localhost:8080" 10) (by decide)
    (fun _ => .timeout) "user" wExt⟩

/-- C5: after a per-unit fetch succeeds through the second candidate `B`
(the sticky endpoint `A` having soft-failed with Forbidden), the sticky
instance becomes `B`, and every subsequent per-unit fetch on the same
fetcher attempts `B` first, before any other configured candidate. -/
theorem C5_sticky_endpoint_reuse (st : FetcherState)
    (resp : String → HttpResponse) (u : String) (ext : TextExt) (B : String)
    (body : Body) (rest : List String)
    (hlist : instancesToTry st = st.currentInstance :: B :: rest)
    (hA : resp st.currentInstance = .forbidden)
    (hB : resp B = .ok body) (hvalid : body.startsLt = true) :
    ((fetchUserRss st resp u ext).2.1).currentInstance = B ∧
    ∀ (resp2 : String → HttpResponse) (u2 : String) (ext2 : TextExt),
      ((fetchUserRss ((fetchUserRss st resp u ext).2.1) resp2 u2 ext2).2.2).head?
        = some B := by
  have hcur : ((fetchUserRss st resp u ext).2.1).currentInstance = B := by
    rw [fetchUserRss_state]
    show (tryInstances st resp u ext (instancesToTry st) none).2.1 = B
    rw [hlist]
    simp [tryInstances, hA, hB, hvalid]
  refine ⟨hcur, fun resp2 u2 ext2 => ?_⟩
  obtain ⟨t, ht⟩ := instancesToTry_head ((fetchUserRss st resp u ext).2.1)
  show (tryInstances _ resp2 u2 ext2 (instancesToTry _) none).2.2.head? = some B
  rw [ht, tryInstances_att_head, hcur]

/-- Witness for C5: candidates `[privacydev(Forbidden), poast(ok), …]`;
after one fetch the sticky instance is poast and a second fetch for a
different user attempts poast first. -/
theorem C5_witness :
    ((fetchUserRss wSt respForbiddenThenOk "u" wExt).2.1).currentInstance =
      "https://nitter.poast.org" ∧
    ((fetchUserRss ((fetchUserRss wSt respForbiddenThenOk "u" wExt).2.1)
        respForbiddenThenOk "v" wExt).2.2).head? =
      some "https://nitter.poast.org" := by
  have h := C5_sticky_endpoint_reuse wSt respForbiddenThenOk "u" wExt
    "https://nitter.poast.org" ⟨true, .parsed none⟩
    ["https://nitter.lucabased.xyz", "https://nitter.perennialte.ch",
     "https://nitter.net"]
    (by decide) (by decide) (by decide) rfl
  exact ⟨h.1, h.2 respForbiddenThenOk "v" wExt⟩

/-- C8: a 404 answer from the candidate currently being tried makes the
resolver stop immediately with a successful empty record set: no further
candidate is attempted, the sticky instance is unchanged, and no failure
is raised for the unit. -/
theorem C8_notfound_terminal_success (st : FetcherState)
    (resp : String → HttpResponse) (u : String) (ext : TextExt) (c : String)
    (rest : List String) (lastErr : Option String) (h : resp c = .notFound) :
    tryInstances st resp u ext (c :: rest) lastErr =
      (.ok [], st.currentInstance, [c]) := by
  simp [tryInstances, h]

/-- Witness for C8 at a concrete 404 with one further configured
candidate that is never reached. -/
theorem C8_witness :
    tryInstances wSt (fun _ => .notFound) "u" wExt
      ["https://nitter.poast.org", "https://nitter.net"] none =
      (.ok [], wSt.currentInstance, ["https://nitter.poast.org"]) :=
  C8_notfound_terminal_success wSt (fun _ => .notFound) "u" wExt
    "https://nitter.poast.org" ["https://nitter.net"] none rfl

/-- C4 (amended): a 200 body that passes the minimal shape check (starts
with `<`) but fails XML parsing is NOT propagated as a parse failure: the
fetch returns it as a successful empty record set, tries no further
candidate, and leaves the sticky instance unchanged.  (Only a body that
does not start with `<` is treated as a soft failure that continues to
the next candidate.) -/
theorem C4_parse_failure_not_propagated (st : FetcherState)
    (resp : String → HttpResponse) (u : String) (ext : TextExt) (body : Body)
    (h : resp st.currentInstance = .ok body) (h1 : body.startsLt = true)
    (h2 : body.doc = .malformed) :
    fetchUserRss st resp u ext = (.ok [], st, [st.currentInstance]) := by
  obtain ⟨t, ht⟩ := instancesToTry_head st
  unfold fetchUserRss
  rw [ht]
  simp [tryInstances, h, h1, h2, parseRss]

/-- C4 counterexample: the sticky candidate answers 200 with a
`<`-prefixed but malformed body while the next candidate would answer
with a parsable non-empty feed; the run returns a successful empty fetch
after exactly one attempt instead of failing over. -/
theorem C4_counterexample :
    fetchUserRss wSt respBadXmlThenGood "u" wExt =
      (.ok [], wSt, ["https://nitter.privacydev.net"]) ∧
    parseRss wExt "u" goodDoc ≠ [] :=
  ⟨rfl, by decide⟩

/-- Witness for C4's amended theorem at a concrete malformed body. -/
theorem C4_witness :
    fetchUserRss wSt (fun _ => .ok ⟨true, .malformed⟩) "u" wExt =
      (.ok [], wSt, ["https://nitter.privacydev.net"]) :=
  C4_parse_failure_not_propagated wSt (fun _ => .ok ⟨true, .malformed⟩) "u"
    wExt ⟨true, .malformed⟩ rfl rfl rfl

end NitterRSS

namespace NitterRSS

/-- C2 counterexample: a feed whose two items embed the same tweet id
`123` normalizes to TWO records carrying that id — the duplicate is not
dropped. -/
theorem C2_counterexample :
    (parseRss wExt "u" dupDoc).map Tweet.id = ["123", "123"] ∧
    ¬ ((parseRss wExt "u" dupDoc).map Tweet.id).Nodup :=
  ⟨rfl, by decide⟩

/-- C2 (amended): the normalizer performs no deduplication: every item of
a parsed channel yields exactly one record, so the record count equals
the item count even when extracted identifiers coincide. -/
theorem C2_no_dedup_in_normalizer (ext : TextExt) (username : String)
    (ch : Channel) :
    (parseRss ext username (Doc.parsed (some ch))).length =
      ch.items.length := by
  unfold parseRss
  exact length_filterMap_parseItem ext username _ ch.items

/-- C3 counterexample: a five-item feed whose third item has no
`status/<digits>` link segment normalizes to 5 records (not 4): the
id-less item is kept, with an empty id. -/
theorem C3_counterexample :
    (parseRss wExt "u" fiveDoc).length = 5 ∧
    (parseRss wExt "u" fiveDoc).length ≠ 4 ∧
    (parseRss wExt "u" fiveDoc).map Tweet.id = ["11", "22", "", "44", "55"] :=
  ⟨rfl, by decide, rfl⟩

/-- C3 (amended): an item from which no stable identifier can be
extracted is NOT skipped: `_parse_item` always yields a record, whose id
is exactly the (possibly empty) extraction result; a five-item feed with
one id-less item yields five records with an empty id in that position,
and no error. -/
theorem C3_no_skip_on_missing_id :
    (∀ (ext : TextExt) (u un : String) (item : Item),
      (parseItem ext u un item).isSome = true ∧
      (parseItem ext u un item).map Tweet.id =
        some (extractTweetId (item.link.getD ""))) ∧
    (parseRss wExt "u" fiveDoc).length = 5 ∧
    (parseRss wExt "u" fiveDoc).map Tweet.id = ["11", "22", "", "44", "55"] :=
  ⟨fun ext u un item => ⟨parseItem_isSome ext u un item, parseItem_id ext u un item⟩,
   rfl, rfl⟩

theorem listLe_total : ∀ (x y : List Char),
    listLe x y = true ∨ listLe y x = true
  | [], _ => .inl rfl
  | _ :: _, [] => .inr rfl
  | a :: as, b :: bs => by
    rcases lt_trichotomy a b with h | h | h
    · exact .inl (by simp [listLe, h])
    · subst h
      rcases listLe_total as bs with h1 | h1
      · exact .inl (by simp [listLe, h1])
      · exact .inr (by simp [listLe, h1])
    · exact .inr (by simp [listLe, h])

theorem listLe_trans : ∀ (x y z : List Char),
    listLe x y = true → listLe y z = true → listLe x z = true
  | [], _, _, _, _ => rfl
  | _ :: _, [], _, h1, _ => by simp [listLe] at h1
  | _ :: _, _ :: _, [], _, h2 => by simp [listLe] at h2
  | a :: as, b :: bs, c :: cs, h1, h2 => by
    rcases lt_trichotomy a b with hab | hab | hab
    · rcases lt_trichotomy b c with hbc | hbc | hbc
      · simp [listLe, lt_trans hab hbc]
      · subst hbc
        simp [listLe, hab]
      · rw [listLe, if_neg (asymm hbc), if_pos hbc] at h2
        exact absurd h2 (by simp)
    · subst hab
      rw [listLe, if_neg (lt_irrefl a), if_neg (lt_irrefl a)] at h1
      rcases lt_trichotomy a c with hac | hac | hac
      · simp [listLe, hac]
      · subst hac
        rw [listLe, if_neg (lt_irrefl a), if_neg (lt_irrefl a)] at h2 ⊢
        exact listLe_trans as bs cs h1 h2
      · rw [listLe, if_neg (asymm hac), if_pos hac] at h2
        exact absurd h2 (by simp)
    · rw [listLe, if_neg (asymm hab), if_pos hab] at h1
      exact absurd h1 (by simp)

theorem tweetRel_total : ∀ a b : Tweet, tweetRel a b ∨ tweetRel b a :=
  fun a b => listLe_total b.created_at.toList a.created_at.toList

theorem tweetRel_trans :
    ∀ a b c : Tweet, tweetRel a b → tweetRel b c → tweetRel a c :=
  fun _ _ _ hab hbc => listLe_trans _ _ _ hbc hab

theorem foldl_collectStep :
    ∀ (pairs : List (String × Except String (List Tweet)))
      (a : List Tweet) (e : List String),
      pairs.foldl collectStep (a, e) =
        (a ++ oksJoin pairs, e ++ errEntries pairs)
  | [], a, e => by simp [oksJoin, errEntries]
  | (u, .ok ts) :: rest, a, e => by
    by_cases h : ts.isEmpty
    · have hts : ts = [] := by simpa using h
      simp [collectStep, h, hts, oksJoin, errEntries,
        foldl_collectStep rest a e]
    · simp [collectStep, h, oksJoin, errEntries,
        foldl_collectStep rest (a ++ ts) e, List.append_assoc]
  | (u, .error m) :: rest, a, e => by
    simp [collectStep, oksJoin, errEntries,
      foldl_collectStep rest a (e ++ ["@" ++ u ++ ": " ++ m]),
      List.append_assoc]

theorem collectTweets_eq (pairs : List (String × Except String (List Tweet))) :
    collectTweets pairs = (oksJoin pairs, errEntries pairs) := by
  have h := foldl_collectStep pairs [] []
  simpa [collectTweets] using h

/-- C7 counterexample: two tweets with equal `created_at` keys and ids
`2` then `1` in merge order come out of `fetch` in that same order
`[2, 1]` — the tie is NOT broken by natural key ascending (which would
give `[1, 2]`). -/
theorem C7_counterexample :
    ((fetch wSt (fun _ _ => .ok ⟨true, tieDoc⟩) wExt ["u"] "now").1.tweets).map
      Tweet.created_at = ["2024-01-01T00:00:00", "2024-01-01T00:00:00"] ∧
    ((fetch wSt (fun _ _ => .ok ⟨true, tieDoc⟩) wExt ["u"] "now").1.tweets).map
      Tweet.id = ["2", "1"] ∧
    ((fetch wSt (fun _ _ => .ok ⟨true, tieDoc⟩) wExt ["u"] "now").1.tweets).map
      Tweet.id ≠ ["1", "2"] :=
  ⟨rfl, rfl, by decide⟩

/-- C7 (amended): the merged record set of one `fetch` run is sorted by
`created_at` descending (`tweetRel`), and is a permutation of the merged
per-account lists; ties keep their merge-order position (the sort is
stable), which is account order then feed order — not natural-key
ascending. -/
theorem C7_sorted_desc_stable_merge (st : FetcherState)
    (resp : String → String → HttpResponse) (ext : TextExt)
    (accounts : List String) (now : String) :
    ((fetch st resp ext accounts now).1.tweets).Sorted tweetRel ∧
    ((fetch st resp ext accounts now).1.tweets).Perm
      (mergedTweets st resp ext accounts) := by
  haveI : IsTotal Tweet tweetRel := ⟨tweetRel_total⟩
  haveI : IsTrans Tweet tweetRel := ⟨tweetRel_trans⟩
  exact ⟨List.sorted_insertionSort tweetRel _, List.perm_insertionSort tweetRel _⟩

/-- C10: `fetch` is total and always returns the four-field dictionary:
its timestamp and final sticky instance are as recorded, its `errors`
list has exactly one `@user: message` entry per failed account (in
account order), and its `tweets` list is a permutation of the
concatenation of every successful account's records. -/
theorem C10_fetch_resilient (st : FetcherState)
    (resp : String → String → HttpResponse) (ext : TextExt)
    (accounts : List String) (now : String) :
    (fetch st resp ext accounts now).1.timestamp = now ∧
    (fetch st resp ext accounts now).1.instanceUsed =
      (gatherResults resp ext st accounts).2.currentInstance ∧
    (fetch st resp ext accounts now).1.errors =
      errEntries (accounts.zip (gatherResults resp ext st accounts).1) ∧
    ((fetch st resp ext accounts now).1.tweets).Perm
      (oksJoin (accounts.zip (gatherResults resp ext st accounts).1)) := by
  refine ⟨rfl, rfl, ?_, ?_⟩
  · show (collectTweets _).2 = _
    rw [collectTweets_eq]
  · show (sortTweetsDesc (collectTweets _).1).Perm _
    rw [collectTweets_eq]
    exact List.perm_insertionSort tweetRel _

end NitterRSS

namespace MarketTracker

theorem foldl_settleStep_val (specs : List SourceSpec) :
    ∀ (acc : List (String × Option SourceData) × List String),
      (((specs.map (fun s => (s.key, TaskResult.val (runSourceTask s).1))).foldl
          settleStep acc).1).map Prod.fst =
        acc.1.map Prod.fst ++ specs.map SourceSpec.key := by
  induction specs with
  | nil => simp
  | cons s rest ih =>
    intro acc
    simp only [List.map_cons, List.foldl_cons, settleStep]
    rw [ih]
    simp

/-- C1: the mapping produced by one `fetch_all` run has exactly one entry
per scheduled source, in order, whatever each source's body did
(succeeded, raised, failed to import, or was disabled): every wrapper
coroutine catches its exceptions and settles with a value, so no key is
ever dropped by the exception branch of the collection loop. -/
theorem C1_fetchAll_completeness (specs : List SourceSpec) :
    ((fetchAll specs).1).map Prod.fst = specs.map SourceSpec.key := by
  have h := foldl_settleStep_val specs ([], [])
  simpa [fetchAll, collectOutcomes] using h

/-- C9 counterexample: `generate_report` reads the wall clock
(`datetime.now()`) for its header line, so two renderings of the very
same snapshot contents at different times are not byte-identical. -/
theorem C9_counterexample :
    generateReport [] [] "2025年01月01日 00:00" ≠
      generateReport [] [] "2025年01月02日 08:30" := by
  decide

/-- C9 (amended): for a fixed render time, `generate_report` is a pure
function of the snapshot contents looked up by source key: any two
results mappings with the same per-key lookups (in particular, the same
entries populated in any order) and the same error ledger render to
byte-identical output. -/
theorem C9_render_deterministic (r1 r2 : List (String × Option SourceData))
    (errors : List String) (nowStr : String)
    (h : ∀ k, getResult k r1 = getResult k r2) :
    generateReport r1 errors nowStr = generateReport r2 errors nowStr := by
  simp only [generateReport, h]

/-- Witness for C9's amended theorem: the same two entries populated in
opposite orders render identically. -/
theorem C9_witness :
    (∀ k, getResult k resA = getResult k resB) ∧
    generateReport resA ["err"] "2025年01月01日 00:00" =
      generateReport resB ["err"] "2025年01月01日 00:00" := by
  have hk : ∀ k, getResult k resA = getResult k resB := by
    intro k
    by_cases h1 : "twitter" = k
    · by_cases h2 : "github" = k
      · exact absurd (h1.trans h2.symm) (by decide)
      · simp [getResult, resA, resB, h1, h2]
    · by_cases h2 : "github" = k
      · simp [getResult, resA, resB, h1, h2]
      · simp [getResult, resA, resB, h1, h2]
  exact ⟨hk, C9_render_deterministic resA resB ["err"] "2025年01月01日 00:00" hk⟩

end MarketTracker
